import Mathlib

/-!
Verification development for the Qdrant knowledge-consolidator analysis script
(`docs/qdrant/qdrant_analysis.py`).  The script loads batched JSON exports of
point records, aggregates descriptive statistics over their payloads, and
prints a text report.  This file embeds the aggregation and report logic as
executable Lean functions and proves properties about them.

Modelling conventions:
* Python floats are modelled by `ℚ` (the script only adds, divides and
  compares score values; every concrete value in this development is exactly
  representable).
* A Python runtime error inside a computation (ZeroDivisionError from
  `count/len(...)`, StatisticsError from `statistics.stdev` on fewer than two
  data points) is modelled by an `Option` result being `none`.
* Payload values are modelled by the stratified type `Val`, which covers every
  shape the script manipulates: scalars, lists of scalars (`categories`,
  `participants`), single objects, and lists of objects (`convergenceChains`).
* A `dict` is modelled as an association list with distinct keys (Python's
  `json.load` produces key-unique dicts); `lookup` returns the first match.
-/

namespace QdrantAnalysis

/-- Scalar JSON values appearing in payloads. -/
inductive Scalar : Type
  | null
  | bool (b : Bool)
  | num (q : ℚ)
  | str (s : String)
deriving DecidableEq

/-- Values stored inside a convergence-chain object: a scalar (for example the
`convergenceScore` number) or a list of scalars (the `participants` list). -/
inductive FieldVal : Type
  | scalar (s : Scalar)
  | list (l : List Scalar)
deriving DecidableEq

/-- A convergence-chain object: a key/value map with `FieldVal` values. -/
abbrev ChainObj := List (String × FieldVal)

/-- Payload values as the script manipulates them: scalars, lists of scalars,
single objects, and lists of objects (the shape of `convergenceChains`). -/
inductive Val : Type
  | scalar (s : Scalar)
  | list (l : List Scalar)
  | obj (o : ChainObj)
  | objList (l : List ChainObj)
deriving DecidableEq

/-- A point's payload: a key/value map (Python dict) with `Val` values. -/
abbrev Payload := List (String × Val)

/-- One point record: an identifier plus a payload map. -/
structure Point where
  id : Val
  payload : Payload
deriving DecidableEq

/-- One input JSON document, holding the point list found at
`data['result']['points']`. -/
structure Doc where
  points : List Point
deriving DecidableEq

/-- Dictionary lookup: `payload[k]` / `k in payload`, as an `Option`. -/
def lookup (p : Payload) (k : String) : Option Val :=
  (p.find? (fun kv => kv.1 == k)).map (·.2)

/-- Key-presence test `k in payload`. -/
def hasKey (p : Payload) (k : String) : Bool :=
  (lookup p k).isSome

/-- Lookup inside a chain object. -/
def lookupC (o : ChainObj) (k : String) : Option FieldVal :=
  (o.find? (fun kv => kv.1 == k)).map (·.2)

/-- Merging the input documents: `all_points.extend(...)` over each batch. -/
def allPoints (docs : List Doc) : List Point :=
  docs.flatMap (·.points)

/-- Field cataloging: every payload key name observed, as a set. -/
def payloadFields (pts : List Point) : Finset String :=
  (pts.flatMap (fun pt => pt.payload.map Prod.fst)).toFinset

/-- File-identity extraction for one record: prefer `sourceFile`, fall back to
`file`, otherwise contribute nothing. -/
def fileId (pt : Point) : Option Val :=
  match lookup pt.payload "sourceFile" with
  | some v => some v
  | none => lookup pt.payload "file"

/-- The set of unique file identities (`files_unique`). -/
def filesUnique (pts : List Point) : Finset Val :=
  (pts.filterMap fileId).toFinset

/-- Category occurrences contributed by one record: a list value contributes
each element, any other present value contributes itself once. -/
def catsOf (pt : Point) : List Val :=
  match lookup pt.payload "categories" with
  | none => []
  | some (Val.list l) => l.map Val.scalar
  | some (Val.objList l) => l.map Val.obj
  | some v => [v]

/-- The stream of category-counter increments over all records. -/
def catStream (pts : List Point) : List Val :=
  pts.flatMap catsOf

/-- The category counter (`categories_dist[c]`). -/
def catCount (pts : List Point) (c : Val) : ℕ :=
  (catStream pts).count c

/-- Intelligence-type extraction: prefer `intelligence_type`, fall back to
`intelligenceType`. -/
def intelType (pt : Point) : Option Val :=
  match lookup pt.payload "intelligence_type" with
  | some v => some v
  | none => lookup pt.payload "intelligenceType"

/-- The intelligence-type counter. -/
def intelCount (pts : List Point) (t : Val) : ℕ :=
  (pts.filterMap intelType).count t

/-- Enrichment-level extraction: prefer `enrichment_level`, fall back to
`enrichmentLevel`. -/
def enrichLevel (pt : Point) : Option Val :=
  match lookup pt.payload "enrichment_level" with
  | some v => some v
  | none => lookup pt.payload "enrichmentLevel"

/-- The enrichment-level counter. -/
def enrichCount (pts : List Point) (e : Val) : ℕ :=
  (pts.filterMap enrichLevel).count e

/-- The chain objects contributed by one record: present `convergenceChains`
values that are lists of objects.  (A `convergenceChains` value of any other
list shape would make the Python loop crash or skip; the modelled input
universe uses object lists, the shape the script was written for.) -/
def chainsOf (pt : Point) : List ChainObj :=
  match lookup pt.payload "convergenceChains" with
  | some (Val.objList l) => l
  | _ => []

/-- Participant count of one chain: the length of its `participants` list.
(The script calls `len` on the raw value; a non-list value is outside the
modelled input universe — Python would raise `TypeError` for numbers.) -/
def chainParticipantCount (c : ChainObj) : Option ℕ :=
  match lookupC c "participants" with
  | some (FieldVal.list l) => some l.length
  | _ => none

/-- Numeric convergence score of one chain.  (The script appends the raw
value; non-numeric scores would crash the later `0 <= s` comparisons, so the
modelled universe keeps numeric ones.) -/
def chainScore (c : ChainObj) : Option ℚ :=
  match lookupC c "convergenceScore" with
  | some (FieldVal.scalar (Scalar.num q)) => some q
  | _ => none

/-- The `convergence_chains` list: participant counts of all chains, in
record order. -/
def chainSizes (pts : List Point) : List ℕ :=
  pts.flatMap (fun pt => (chainsOf pt).filterMap chainParticipantCount)

/-- The `convergence_scores` list, in record order. -/
def convergenceScores (pts : List Point) : List ℚ :=
  pts.flatMap (fun pt => (chainsOf pt).filterMap chainScore)

/-- Python dict insertion order: the first-occurrence order of the increment
stream, which is the key order of a `defaultdict` built by that stream. -/
def firstOccur {α : Type} [DecidableEq α] (l : List α) : List α :=
  l.foldl (fun acc a => if a ∈ acc then acc else acc ++ [a]) []

/-- Mean of a rational list (`statistics.mean`); `none` models the error on an
empty list. -/
def meanQ (l : List ℚ) : Option ℚ :=
  if l = [] then none else some (l.sum / l.length)

/-- Ascending sort of a rational list. -/
def sortQ (l : List ℚ) : List ℚ :=
  List.insertionSort (fun a b : ℚ => a ≤ b) l

/-- Median (`statistics.median`): middle of the sorted list, or the average of
the two middles; `none` models the error on an empty list. -/
def medianQ (l : List ℚ) : Option ℚ :=
  if (sortQ l).length = 0 then none
  else if (sortQ l).length % 2 = 1 then
    some ((sortQ l).getD ((sortQ l).length / 2) 0)
  else
    some (((sortQ l).getD ((sortQ l).length / 2 - 1) 0 +
      (sortQ l).getD ((sortQ l).length / 2) 0) / 2)

/-- The square of the sample standard deviation (`statistics.stdev` squared;
the standard deviation itself is its square root).  `none` models the
`StatisticsError` raised on fewer than two data points. -/
def stdevSqQ (l : List ℚ) : Option ℚ :=
  if l.length < 2 then none
  else some ((l.map (fun x => (x - l.sum / l.length) ^ 2)).sum / ((l.length : ℚ) - 1))

/-- Mean of a natural-number list, as a rational. -/
def meanN (l : List ℕ) : Option ℚ :=
  meanQ (l.map (fun n : ℕ => (n : ℚ)))

/-- Median of a natural-number list, as a rational. -/
def medianN (l : List ℕ) : Option ℚ :=
  medianQ (l.map (fun n : ℕ => (n : ℚ)))

/-- Ascending sort of a natural-number list. -/
def sortN (l : List ℕ) : List ℕ :=
  List.insertionSort (fun a b : ℕ => a ≤ b) l

/-- The chain-size distribution: `sorted(Counter(chains).items())`. -/
def sizeDist (cs : List ℕ) : List (ℕ × ℕ) :=
  (sortN cs.dedup).map (fun k => (k, cs.count k))

/-- The statistics printed by the convergence-chain section. -/
structure ChainStats where
  total : ℕ
  mean : Option ℚ
  median : Option ℚ
  maxP : WithBot ℕ
  minP : WithTop ℕ
  dist : List (ℕ × ℕ)
deriving DecidableEq

/-- The convergence-chain section: either the explicit no-data line or the
computed statistics. -/
inductive ChainSection : Type
  | noData (msg : String)
  | stats (s : ChainStats)
deriving DecidableEq

/-- The convergence-chain section of the report. -/
def chainSectionOf (pts : List Point) : ChainSection :=
  let cs := chainSizes pts
  if cs = [] then ChainSection.noData "- No convergence chains data found"
  else ChainSection.stats
    { total := cs.length
      mean := meanN cs
      median := medianN cs
      maxP := cs.maximum
      minP := cs.minimum
      dist := sizeDist cs }

/-- The five fixed score buckets with their member scores, in print order. -/
def scoreRanges (scores : List ℚ) : List (String × List ℚ) :=
  [("0-5", scores.filter (fun s => decide (0 ≤ s) && decide (s < 5))),
   ("5-10", scores.filter (fun s => decide (5 ≤ s) && decide (s < 10))),
   ("10-15", scores.filter (fun s => decide (10 ≤ s) && decide (s < 15))),
   ("15-20", scores.filter (fun s => decide (15 ≤ s) && decide (s < 20))),
   ("20+", scores.filter (fun s => decide (20 ≤ s)))]

/-- One printed bucket line: skipped (`none`) when the bucket is empty,
otherwise the bucket name with its count and mean. -/
def rangeLine (name : String) (l : List ℚ) : Option (String × ℕ × Option ℚ) :=
  if l = [] then none else some (name, l.length, meanQ l)

/-- The printed bucket lines of a bucket list. -/
def rangeLines (rs : List (String × List ℚ)) : List (String × ℕ × Option ℚ) :=
  rs.filterMap (fun nr => rangeLine nr.1 nr.2)

/-- The printed score-distribution lines. -/
def scoreRangeLines (scores : List ℚ) : List (String × ℕ × Option ℚ) :=
  rangeLines (scoreRanges scores)

/-- The statistics printed by the convergence-score section. -/
structure ScoreStats where
  total : ℕ
  mean : Option ℚ
  median : Option ℚ
  maxS : WithBot ℚ
  minS : WithTop ℚ
  stdevSq : Option ℚ
  ranges : List (String × ℕ × Option ℚ)
deriving DecidableEq

/-- The convergence-score section: either the explicit no-data line or the
computed statistics. -/
inductive ScoreSection : Type
  | noData (msg : String)
  | stats (s : ScoreStats)
deriving DecidableEq

/-- The convergence-score section of the report. -/
def scoresSectionOf (pts : List Point) : ScoreSection :=
  let sc := convergenceScores pts
  if sc = [] then ScoreSection.noData "- No convergence scores data found"
  else ScoreSection.stats
    { total := sc.length
      mean := meanQ sc
      median := medianQ sc
      maxS := sc.maximum
      minS := sc.minimum
      stdevSq := stdevSqQ sc
      ranges := scoreRangeLines sc }

/-- Whether the score section attempted a standard-deviation computation:
`none` when the no-data branch was taken, otherwise the (possibly failing)
result of that attempt. -/
def stdevOfSection : ScoreSection → Option (Option ℚ)
  | ScoreSection.noData _ => none
  | ScoreSection.stats s => some s.stdevSq

/-- A printed percentage `count / total * 100`; `none` models
`ZeroDivisionError` when the total is zero. -/
def pct (c n : ℕ) : Option ℚ :=
  if n = 0 then none else some ((c : ℚ) / (n : ℚ) * 100)

/-- Stable descending sort by count: `sorted(items, key=count, reverse=True)`. -/
def sortByCountDesc {α : Type} (items : List (α × ℕ)) : List (α × ℕ) :=
  List.insertionSort (fun a b => b.2 ≤ a.2) items

/-- The category counter as an ordered item list (dict insertion order). -/
def catItems (pts : List Point) : List (Val × ℕ) :=
  (firstOccur (catStream pts)).map (fun c => (c, catCount pts c))

/-- The printed category-distribution lines. -/
def categoryLines (pts : List Point) : List (Val × ℕ × Option ℚ) :=
  (sortByCountDesc (catItems pts)).map (fun cn => (cn.1, cn.2, pct cn.2 pts.length))

/-- The intelligence-type counter as an ordered item list. -/
def intelItems (pts : List Point) : List (Val × ℕ) :=
  (firstOccur (pts.filterMap intelType)).map (fun t => (t, intelCount pts t))

/-- The printed intelligence-type lines. -/
def intelLines (pts : List Point) : List (Val × ℕ × Option ℚ) :=
  (sortByCountDesc (intelItems pts)).map (fun tn => (tn.1, tn.2, pct tn.2 pts.length))

/-- The enrichment-level counter as an ordered item list. -/
def enrichItems (pts : List Point) : List (Val × ℕ) :=
  (firstOccur (pts.filterMap enrichLevel)).map (fun e => (e, enrichCount pts e))

/-- The enrichment section: `none` models the guarded
"No enrichment levels data found" branch (no line printed, no division). -/
def enrichSectionOf (pts : List Point) : Option (List (Val × ℕ × Option ℚ)) :=
  if pts.filterMap enrichLevel = [] then none
  else some ((sortByCountDesc (enrichItems pts)).map
    (fun en => (en.1, en.2, pct en.2 pts.length)))

/-- Number of points carrying file information. -/
def pointsWithFiles (pts : List Point) : ℕ :=
  pts.countP (fun pt => hasKey pt.payload "sourceFile" || hasKey pt.payload "file")

/-- Number of points carrying `categories`. -/
def pointsWithCategories (pts : List Point) : ℕ :=
  pts.countP (fun pt => hasKey pt.payload "categories")

/-- Number of points carrying an intelligence type. -/
def pointsWithIntelligence (pts : List Point) : ℕ :=
  pts.countP (fun pt =>
    hasKey pt.payload "intelligence_type" || hasKey pt.payload "intelligenceType")

/-- Number of points carrying `convergenceChains`. -/
def pointsWithChains (pts : List Point) : ℕ :=
  pts.countP (fun pt => hasKey pt.payload "convergenceChains")

/-- The four percentages printed by the data-quality assessment; each is
computed by an unconditional division by the total point count. -/
def dataQualityPcts (pts : List Point) : List (Option ℚ) :=
  [pct (pointsWithFiles pts) pts.length,
   pct (pointsWithCategories pts) pts.length,
   pct (pointsWithIntelligence pts) pts.length,
   pct (pointsWithChains pts) pts.length]

/-- One line of the Key Insights section: a fixed literal, or a sentence
interpolating a computed natural number or rational. -/
inductive InsightLine : Type
  | lit (s : String)
  | natLine (pre : String) (n : ℕ) (post : String)
  | ratLine (pre : String) (q : Option ℚ) (post : String)
deriving DecidableEq

/-- The Key Insights section, line by line, mirroring the five prints. -/
def insightsSection (pts : List Point) : List InsightLine :=
  [InsightLine.lit "1. Data completeness: All 351 points successfully retrieved",
   InsightLine.natLine "2. File diversity: " (filesUnique pts).card
     " unique files processed by Intelligence Enrichment Pipeline"]
  ++ (if convergenceScores pts = [] then []
      else [InsightLine.ratLine "3. Convergence quality: Average score of "
        (meanQ (convergenceScores pts)) " indicates good semantic relationships"])
  ++ (if catStream pts = [] then []
      else [InsightLine.natLine "4. Categorization: "
        (firstOccur (catStream pts)).length
        " distinct categories show good knowledge organization"])
  ++ [InsightLine.lit
    "5. Vector quality: 768-dimensional embeddings provide rich semantic representation"]

/-- Witness input for C2: a single record carrying a source file. -/
def c2Pt : Point :=
  ⟨Val.scalar (Scalar.num 1), [("sourceFile", Val.scalar (Scalar.str "a.md"))]⟩

/-- Single-score input for C3: one chain carrying only a convergence score. -/
def c3Pt : Point :=
  ⟨Val.scalar (Scalar.num 2),
   [("convergenceChains",
     Val.objList [[("convergenceScore", FieldVal.scalar (Scalar.num 3))]])]⟩

/-- Witness input for C3: one record with two chains, giving one participant
count and two scores. -/
def c3wPt : Point :=
  ⟨Val.scalar (Scalar.num 3),
   [("convergenceChains",
     Val.objList
       [[("participants", FieldVal.list [Scalar.str "a", Scalar.str "b"]),
         ("convergenceScore", FieldVal.scalar (Scalar.num 3))],
        [("convergenceScore", FieldVal.scalar (Scalar.num 4))]])]⟩

/-- Input whose single record repeats a category inside its list. -/
def c1Pt : Point :=
  ⟨Val.scalar (Scalar.num 1),
   [("categories", Val.list [Scalar.str "a", Scalar.str "a"])]⟩

/-- Witness input for C1: one record with a single category and a file. -/
def c1wPt : Point :=
  ⟨Val.scalar (Scalar.num 1),
   [("categories", Val.list [Scalar.str "c"]),
    ("sourceFile", Val.scalar (Scalar.str "a.md"))]⟩

/-- Input whose single chain records the negative score `-1`. -/
def c4Pt : Point :=
  ⟨Val.scalar (Scalar.num 4),
   [("convergenceChains",
     Val.objList [[("convergenceScore", FieldVal.scalar (Scalar.num (-1)))]])]⟩

/-- Witness inputs for C5: two records with distinct files and categories. -/
def c5PtA : Point :=
  ⟨Val.scalar (Scalar.num 1),
   [("sourceFile", Val.scalar (Scalar.str "a.md")),
    ("categories", Val.list [Scalar.str "x"])]⟩

/-- Second witness input for C5. -/
def c5PtB : Point :=
  ⟨Val.scalar (Scalar.num 2),
   [("file", Val.scalar (Scalar.str "b.md")),
    ("categories", Val.list [Scalar.str "x", Scalar.str "y"])]⟩

/-! Determinism of the emitted report (claim C8).  The only internal,
hash-dependent orders in the script are the iteration orders of the two
Python sets (`files_unique` and `payload_fields`); both are passed through
`sorted` before printing.  The report is therefore modelled as a function of
the input records plus arbitrary enumerations of those two sets, and shown
independent of the enumerations whenever the file identities are mutually
comparable — all strings or all numbers, the only listings Python's `sorted`
can order at all.  On a mixed or otherwise incomparable listing `sorted`
raises `TypeError` on every run, so no report is produced and there is no
output to compare. -/

theorem pct_eq_some {c n : ℕ} (h : n ≠ 0) :
    pct c n = some ((c : ℚ) / (n : ℚ) * 100) := by
  simp [pct, h]

theorem pct_isSome {c n : ℕ} (h : n ≠ 0) : (pct c n).isSome := by
  simp [pct, h]

theorem pct_bounds {c n : ℕ} (h : n ≠ 0) (hc : c ≤ n) :
    ∃ q, pct c n = some q ∧ 0 ≤ q ∧ q ≤ 100 := by
  refine ⟨(c : ℚ) / (n : ℚ) * 100, pct_eq_some h, ?_, ?_⟩
  · positivity
  · have hn : (0 : ℚ) < (n : ℚ) := by
      exact_mod_cast Nat.pos_of_ne_zero h
    have hdiv : (c : ℚ) / (n : ℚ) ≤ 1 := by
      rw [div_le_one hn]
      exact_mod_cast hc
    calc (c : ℚ) / (n : ℚ) * 100 ≤ 1 * 100 := by
          exact mul_le_mul_of_nonneg_right hdiv (by norm_num)
      _ = 100 := by norm_num

theorem rangeLine_eq_some {name : String} {l : List ℚ} {e : String × ℕ × Option ℚ} :
    rangeLine name l = some e ↔ l ≠ [] ∧ e = (name, l.length, meanQ l) := by
  unfold rangeLine
  split
  · simp [*]
  · simp only [Option.some_inj]
    constructor
    · intro he
      exact ⟨by assumption, he.symm⟩
    · intro he
      exact he.2.symm

theorem mem_rangeLines {rs : List (String × List ℚ)} {e : String × ℕ × Option ℚ} :
    e ∈ rangeLines rs ↔ ∃ nr ∈ rs, nr.2 ≠ [] ∧ e = (nr.1, nr.2.length, meanQ nr.2) := by
  simp only [rangeLines, List.mem_filterMap, rangeLine_eq_some]

theorem chainsOf_eq_nil {pt : Point}
    (h : lookup pt.payload "convergenceChains" = none) : chainsOf pt = [] := by
  simp [chainsOf, h]

theorem chainSizes_eq_nil {pts : List Point}
    (h : ∀ pt ∈ pts, hasKey pt.payload "convergenceChains" = false) :
    chainSizes pts = [] := by
  induction pts with
  | nil => rfl
  | cons p ps ih =>
    have hp : lookup p.payload "convergenceChains" = none := by
      cases hl : lookup p.payload "convergenceChains" with
      | none => rfl
      | some v =>
        have hb := h p (List.mem_cons_self p ps)
        rw [hasKey, hl] at hb
        simp at hb
    have hps : chainSizes ps = [] := ih fun pt hpt => h pt (List.mem_cons_of_mem p hpt)
    simp [chainSizes, chainsOf_eq_nil hp] at hps ⊢
    exact hps

/-- C9: for every input, the first line of the Key Insights section is the
fixed literal text `1. Data completeness: All 351 points successfully
retrieved`, independent of the number of points loaded; structurally it is a
`lit` line, interpolating no computed value. -/
theorem c9_first_insight_fixed : ∀ pts : List Point,
    (insightsSection pts).head? =
      some (InsightLine.lit "1. Data completeness: All 351 points successfully retrieved") :=
  fun _ => rfl

/-- C7: when no record carries a `convergenceChains` payload key, the
chain-statistics section takes the no-data branch, emitting exactly the
`No convergence chains data found` line and computing no statistics. -/
theorem c7_no_chain_data_branch (pts : List Point)
    (h : ∀ pt ∈ pts, hasKey pt.payload "convergenceChains" = false) :
    chainSectionOf pts = ChainSection.noData "- No convergence chains data found" := by
  simp [chainSectionOf, chainSizes_eq_nil h]

theorem c7_witness :
    chainSectionOf [⟨Val.scalar (Scalar.num 7), [("file", Val.scalar (Scalar.str "a.md"))]⟩] =
      ChainSection.noData "- No convergence chains data found" :=
  c7_no_chain_data_branch _ (by decide)

/-- C6: file-identity extraction prefers `sourceFile`, falls back to `file`,
contributes nothing when neither key is present, and the identities are
collected into a set whose membership is exactly the extracted values
(repeated values deduplicate automatically). -/
theorem c6_file_identity :
    (∀ pt : Point, ∀ v, lookup pt.payload "sourceFile" = some v → fileId pt = some v) ∧
    (∀ pt : Point, lookup pt.payload "sourceFile" = none →
      fileId pt = lookup pt.payload "file") ∧
    (∀ pt : Point, lookup pt.payload "sourceFile" = none →
      lookup pt.payload "file" = none → fileId pt = none) ∧
    (∀ (pts : List Point) (v : Val),
      v ∈ filesUnique pts ↔ ∃ pt ∈ pts, fileId pt = some v) ∧
    (∀ (pts : List Point) (pt : Point),
      filesUnique (pt :: pt :: pts) = filesUnique (pt :: pts)) := by
  refine ⟨?_, ?_, ?_, ?_, ?_⟩
  · intro pt v h
    simp [fileId, h]
  · intro pt h
    simp [fileId, h]
  · intro pt h1 h2
    simp [fileId, h1, h2]
  · intro pts v
    simp [filesUnique, List.mem_toFinset, List.mem_filterMap]
  · intro pts pt
    cases h : fileId pt with
    | none => simp [filesUnique, List.filterMap_cons, h]
    | some a => simp [filesUnique, List.filterMap_cons, h, List.toFinset_cons]

theorem c6_witness :
    fileId ⟨Val.scalar (Scalar.num 1),
        [("sourceFile", Val.scalar (Scalar.str "s.md")), ("file", Val.scalar (Scalar.str "f.md"))]⟩ =
      some (Val.scalar (Scalar.str "s.md")) ∧
    Val.scalar (Scalar.str "s.md") ∈
      filesUnique [⟨Val.scalar (Scalar.num 1),
        [("sourceFile", Val.scalar (Scalar.str "s.md")), ("file", Val.scalar (Scalar.str "f.md"))]⟩] := by
  constructor
  · exact c6_file_identity.1 _ _ rfl
  · exact (c6_file_identity.2.2.2.1 _ _).2
      ⟨_, List.mem_cons_self _ _, c6_file_identity.1 _ _ rfl⟩

/-- C10: in the score distribution by ranges, every printed line comes from a
non-empty bucket (its count is never zero), an empty bucket produces no line
at all, and every non-empty bucket produces its count-and-mean line. -/
theorem c10_empty_buckets_omitted : ∀ scores : List ℚ,
    (∀ e ∈ scoreRangeLines scores, e.2.1 ≠ 0 ∧
      ∃ nr ∈ scoreRanges scores, nr.2 ≠ [] ∧ e = (nr.1, nr.2.length, meanQ nr.2)) ∧
    (∀ nr ∈ scoreRanges scores,
      (nr.2 = [] → nr.1 ∉ (scoreRangeLines scores).map Prod.fst) ∧
      (nr.2 ≠ [] → (nr.1, nr.2.length, meanQ nr.2) ∈ scoreRangeLines scores)) := by
  intro scores
  have hnames : (scoreRanges scores).map Prod.fst =
      ["0-5", "5-10", "10-15", "15-20", "20+"] := rfl
  have hnodup : ((scoreRanges scores).map Prod.fst).Nodup := by
    rw [hnames]; decide
  constructor
  · intro e he
    rcases mem_rangeLines.1 he with ⟨nr, hmem, hne, hee⟩
    refine ⟨?_, nr, hmem, hne, hee⟩
    rw [hee]
    simpa [List.length_eq_zero] using hne
  · intro nr hmem
    constructor
    · intro hnil hcontra
      rcases List.mem_map.1 hcontra with ⟨e, he, hfst⟩
      rcases mem_rangeLines.1 he with ⟨nr2, hmem2, hne2, hee⟩
      have : nr2.1 = nr.1 := by rw [hee] at hfst; exact hfst
      have heq : nr2 = nr :=
        List.inj_on_of_nodup_map hnodup hmem2 hmem this
      rw [heq] at hne2
      exact hne2 hnil
    · intro hne
      exact mem_rangeLines.2 ⟨nr, hmem, hne, rfl⟩

theorem c10_witness :
    "0-5" ∉ (scoreRangeLines [(22 : ℚ)]).map Prod.fst ∧
    ("20+", 1, meanQ [(22 : ℚ)]) ∈ scoreRangeLines [(22 : ℚ)] := by
  have h := c10_empty_buckets_omitted [(22 : ℚ)]
  constructor
  · exact (h.2 ("0-5", []) (by decide)).1 rfl
  · exact (h.2 ("20+", [(22 : ℚ)]) (by decide)).2 (by decide)

theorem meanQ_isSome {l : List ℚ} (h : l ≠ []) : (meanQ l).isSome := by
  simp [meanQ, h]

theorem medianQ_isSome {l : List ℚ} (h : l ≠ []) : (medianQ l).isSome := by
  have hn : (sortQ l).length ≠ 0 := by
    rw [sortQ, List.length_insertionSort]
    simpa [List.length_eq_zero] using h
  rw [medianQ, if_neg hn]
  split <;> rfl

theorem meanN_isSome {l : List ℕ} (h : l ≠ []) : (meanN l).isSome := by
  apply meanQ_isSome
  cases l with
  | nil => exact absurd rfl h
  | cons a as => simp

theorem medianN_isSome {l : List ℕ} (h : l ≠ []) : (medianN l).isSome := by
  apply medianQ_isSome
  cases l with
  | nil => exact absurd rfl h
  | cons a as => simp

/-- Counterexample to C2: on an empty input set the data-quality assessment
still evaluates all four `count/total` percentages with `total = 0`; the
division by zero is modelled by the `none` results. -/
theorem c2_counterexample :
    dataQualityPcts [] = [pct 0 0, pct 0 0, pct 0 0, pct 0 0] ∧ pct 0 0 = none := by
  exact ⟨rfl, rfl⟩

/-- C2 (amended): on an empty input the three distribution sections perform no
division (the category and intelligence loops are vacuous and the enrichment
section is guarded), but the data-quality assessment divides by the zero
total; on any non-empty input every printed percentage divides by a non-zero
total, so no division by zero occurs. -/
theorem c2_division_guards :
    (categoryLines [] = [] ∧ intelLines [] = [] ∧ enrichSectionOf [] = none ∧
      dataQualityPcts [] = [none, none, none, none]) ∧
    (∀ pts : List Point, pts ≠ [] →
      (∀ o ∈ dataQualityPcts pts, o.isSome) ∧
      (∀ e ∈ categoryLines pts, e.2.2.isSome) ∧
      (∀ e ∈ intelLines pts, e.2.2.isSome) ∧
      (∀ ls, enrichSectionOf pts = some ls → ∀ e ∈ ls, e.2.2.isSome)) := by
  constructor
  · exact ⟨rfl, rfl, rfl, rfl⟩
  · intro pts h
    have hlen : pts.length ≠ 0 := by
      simpa [List.length_eq_zero] using h
    refine ⟨?_, ?_, ?_, ?_⟩
    · intro o ho
      simp only [dataQualityPcts, List.mem_cons, List.not_mem_nil, or_false] at ho
      rcases ho with rfl | rfl | rfl | rfl <;> exact pct_isSome hlen
    · intro e he
      rcases List.mem_map.1 he with ⟨cn, _, rfl⟩
      exact pct_isSome hlen
    · intro e he
      rcases List.mem_map.1 he with ⟨tn, _, rfl⟩
      exact pct_isSome hlen
    · intro ls hls e he
      rw [enrichSectionOf] at hls
      split at hls
      · cases hls
      · cases hls
        rcases List.mem_map.1 he with ⟨en, _, rfl⟩
        exact pct_isSome hlen

theorem c2_witness : (pct (pointsWithFiles [c2Pt]) (List.length [c2Pt])).isSome :=
  (c2_division_guards.2 [c2Pt] (by decide)).1 _ (List.mem_cons_self _ _)

/-- Counterexample to C3: with exactly one recorded score the score section
passes its non-empty guard and attempts the standard deviation, which is
undefined on a single data point (Python raises `StatisticsError`): the
attempt is made (outer `some`) and fails (inner `none`). -/
theorem c3_counterexample :
    convergenceScores [c3Pt] = [3] ∧
    stdevOfSection (scoresSectionOf [c3Pt]) = some none := by
  exact ⟨rfl, rfl⟩

/-- C3 (amended): every mean, median, max, min and bucket mean is computed
only behind the non-empty guards, so no statistic over an empty collection is
ever attempted; the standard deviation, however, is attempted whenever the
score list is non-empty, which is undefined when it holds exactly one score
(it is defined again from two scores up). -/
theorem c3_statistics_guards : ∀ pts : List Point,
    (chainSizes pts = [] →
      chainSectionOf pts = ChainSection.noData "- No convergence chains data found") ∧
    (∀ s, chainSectionOf pts = ChainSection.stats s →
      s.mean.isSome ∧ s.median.isSome ∧ s.maxP ≠ ⊥ ∧ s.minP ≠ ⊤) ∧
    (convergenceScores pts = [] →
      scoresSectionOf pts = ScoreSection.noData "- No convergence scores data found") ∧
    (∀ s, scoresSectionOf pts = ScoreSection.stats s →
      s.mean.isSome ∧ s.median.isSome ∧ s.maxS ≠ ⊥ ∧ s.minS ≠ ⊤ ∧
      (∀ e ∈ s.ranges, e.2.2.isSome) ∧
      (2 ≤ s.total → s.stdevSq.isSome) ∧ (s.total = 1 → s.stdevSq = none)) := by
  intro pts
  refine ⟨?_, ?_, ?_, ?_⟩
  · intro h
    simp [chainSectionOf, h]
  · intro s hs
    by_cases hcs : chainSizes pts = []
    · simp [chainSectionOf, hcs] at hs
    · simp only [chainSectionOf, if_neg hcs] at hs
      cases hs
      exact ⟨meanN_isSome hcs, medianN_isSome hcs,
        List.maximum_ne_bot_of_ne_nil hcs, List.minimum_ne_top_of_ne_nil hcs⟩
  · intro h
    simp [scoresSectionOf, h]
  · intro s hs
    by_cases hsc : convergenceScores pts = []
    · simp [scoresSectionOf, hsc] at hs
    · simp only [scoresSectionOf, if_neg hsc] at hs
      cases hs
      refine ⟨meanQ_isSome hsc, medianQ_isSome hsc,
        List.maximum_ne_bot_of_ne_nil hsc, List.minimum_ne_top_of_ne_nil hsc,
        ?_, ?_, ?_⟩
      · intro e he
        rcases mem_rangeLines.1 he with ⟨nr, _, hne, rfl⟩
        exact meanQ_isSome hne
      · intro htot
        simp only [stdevSqQ, if_neg (not_lt.2 htot)]
        rfl
      · intro htot
        have h1 : (convergenceScores pts).length = 1 := htot
        simp [stdevSqQ, h1]

theorem c3_witness :
    chainSectionOf ([] : List Point) =
      ChainSection.noData "- No convergence chains data found" ∧
    (stdevSqQ (convergenceScores [c3wPt])).isSome := by
  constructor
  · exact (c3_statistics_guards []).1 rfl
  · exact ((c3_statistics_guards [c3wPt]).2.2.2 _ rfl).2.2.2.2.2.1 (by decide)

theorem catCount_le_length {pts : List Point}
    (hnodup : ∀ pt ∈ pts, (catsOf pt).Nodup) (c : Val) :
    catCount pts c ≤ pts.length := by
  induction pts with
  | nil => simp [catCount, catStream]
  | cons p ps ih =>
    have hp : (catsOf p).Nodup := hnodup p (List.mem_cons_self p ps)
    have hps := ih fun pt hpt => hnodup pt (List.mem_cons_of_mem p hpt)
    have hcount : (catsOf p).count c ≤ 1 := List.nodup_iff_count_le_one.1 hp c
    calc catCount (p :: ps) c = (catsOf p).count c + catCount ps c := by
          simp [catCount, catStream, List.count_append]
      _ ≤ 1 + ps.length := Nat.add_le_add hcount hps
      _ = (p :: ps).length := by simp [Nat.add_comm]

theorem intelCount_le_length (pts : List Point) (t : Val) :
    intelCount pts t ≤ pts.length :=
  le_trans (List.count_le_length _ _) (List.length_filterMap_le _ _)

theorem enrichCount_le_length (pts : List Point) (e : Val) :
    enrichCount pts e ≤ pts.length :=
  le_trans (List.count_le_length _ _) (List.length_filterMap_le _ _)

/-- Counterexample to C1: one record whose `categories` list repeats `a`
increments that category counter twice, so with `N = 1` the printed category
percentage is `2/1*100 = 200`, outside `[0, 100]`. -/
theorem c1_counterexample :
    categoryLines [c1Pt] = [(Val.scalar (Scalar.str "a"), 2, some 200)] ∧
    ¬((200 : ℚ) ≤ 100) := by
  constructor
  · have h1 : categoryLines [c1Pt] = [(Val.scalar (Scalar.str "a"), 2, pct 2 1)] := rfl
    have h2 : pct 2 1 = some 200 := by
      rw [pct_eq_some (by norm_num)]
      exact congrArg some (by push_cast; norm_num)
    rw [h1, h2]
  · norm_num

theorem pct_nonneg {c n : ℕ} (h : n ≠ 0) : ∃ q, pct c n = some q ∧ 0 ≤ q :=
  ⟨(c : ℚ) / (n : ℚ) * 100, pct_eq_some h, by positivity⟩

/-- C1 (amended): on every non-empty input all printed percentages are
non-negative, and those of the intelligence-type distribution, the
enrichment-level distribution and the data-quality assessment always lie in
`[0, 100]`; a category percentage also lies in `[0, 100]` provided no single
record repeats a category inside its list (each record then contributes at
most one increment per category, so each count stays at most `N`). -/
theorem c1_percentages (pts : List Point) (hne : pts ≠ []) :
    (∀ e ∈ categoryLines pts, ∃ q, e.2.2 = some q ∧ 0 ≤ q) ∧
    ((∀ pt ∈ pts, (catsOf pt).Nodup) →
      ∀ e ∈ categoryLines pts, ∃ q, e.2.2 = some q ∧ 0 ≤ q ∧ q ≤ 100) ∧
    (∀ e ∈ intelLines pts, ∃ q, e.2.2 = some q ∧ 0 ≤ q ∧ q ≤ 100) ∧
    (∀ ls, enrichSectionOf pts = some ls →
      ∀ e ∈ ls, ∃ q, e.2.2 = some q ∧ 0 ≤ q ∧ q ≤ 100) ∧
    (∀ o ∈ dataQualityPcts pts, ∃ q, o = some q ∧ 0 ≤ q ∧ q ≤ 100) := by
  have hlen : pts.length ≠ 0 := by
    simpa [List.length_eq_zero] using hne
  refine ⟨?_, ?_, ?_, ?_, ?_⟩
  · intro e he
    rcases List.mem_map.1 he with ⟨cn, _, rfl⟩
    exact pct_nonneg hlen
  · intro hnodup e he
    rcases List.mem_map.1 he with ⟨cn, hcn, rfl⟩
    rcases List.mem_map.1 ((List.mem_insertionSort _).1 hcn) with ⟨c, _, rfl⟩
    exact pct_bounds hlen (catCount_le_length hnodup c)
  · intro e he
    rcases List.mem_map.1 he with ⟨tn, htn, rfl⟩
    rcases List.mem_map.1 ((List.mem_insertionSort _).1 htn) with ⟨t, _, rfl⟩
    exact pct_bounds hlen (intelCount_le_length pts t)
  · intro ls hls e he
    rw [enrichSectionOf] at hls
    split at hls
    · cases hls
    · cases hls
      rcases List.mem_map.1 he with ⟨en, hen, rfl⟩
      rcases List.mem_map.1 ((List.mem_insertionSort _).1 hen) with ⟨ev, _, rfl⟩
      exact pct_bounds hlen (enrichCount_le_length pts ev)
  · intro o ho
    simp only [dataQualityPcts, List.mem_cons, List.not_mem_nil, or_false] at ho
    rcases ho with rfl | rfl | rfl | rfl <;>
      exact pct_bounds hlen (List.countP_le_length _)

theorem c1_witness :
    (∃ q, pct 2 1 = some q ∧ 0 ≤ q) ∧
    (∃ q, pct (pointsWithFiles [c1wPt]) (List.length [c1wPt]) = some q ∧
      0 ≤ q ∧ q ≤ 100) := by
  constructor
  · exact (c1_percentages [c1Pt] (by decide)).1 _ (List.mem_cons_self _ _)
  · exact (c1_percentages [c1wPt] (by decide)).2.2.2.2 _ (List.mem_cons_self _ _)

theorem countP_scoreRanges (scores : List ℚ) (s : ℚ) (hs : s ∈ scores) :
    (scoreRanges scores).countP (fun nr => decide (s ∈ nr.2)) =
      if 0 ≤ s then 1 else 0 := by
  simp only [scoreRanges, List.countP_cons, List.countP_nil, List.mem_filter, hs, true_and,
    Bool.and_eq_true, decide_eq_true_eq]
  rcases lt_or_le s 0 with h0 | h0
  · have n1 : ¬(0 ≤ s ∧ s < 5) := fun hc => absurd hc.1 (not_le.2 h0)
    have n2 : ¬(5 ≤ s ∧ s < 10) := fun hc => by linarith [hc.1]
    have n3 : ¬(10 ≤ s ∧ s < 15) := fun hc => by linarith [hc.1]
    have n4 : ¬(15 ≤ s ∧ s < 20) := fun hc => by linarith [hc.1]
    have n5 : ¬(20 ≤ s) := by linarith
    rw [if_neg n1, if_neg n2, if_neg n3, if_neg n4, if_neg n5, if_neg (not_le.2 h0)]
  · rcases lt_or_le s 5 with h5 | h5
    · have p1 : (0 ≤ s ∧ s < 5) := ⟨h0, h5⟩
      have n2 : ¬(5 ≤ s ∧ s < 10) := fun hc => by linarith [hc.1]
      have n3 : ¬(10 ≤ s ∧ s < 15) := fun hc => by linarith [hc.1]
      have n4 : ¬(15 ≤ s ∧ s < 20) := fun hc => by linarith [hc.1]
      have n5 : ¬(20 ≤ s) := by linarith
      rw [if_pos p1, if_neg n2, if_neg n3, if_neg n4, if_neg n5, if_pos h0]
    · rcases lt_or_le s 10 with h10 | h10
      · have n1 : ¬(0 ≤ s ∧ s < 5) := fun hc => by linarith [hc.2]
        have p2 : (5 ≤ s ∧ s < 10) := ⟨h5, h10⟩
        have n3 : ¬(10 ≤ s ∧ s < 15) := fun hc => by linarith [hc.1]
        have n4 : ¬(15 ≤ s ∧ s < 20) := fun hc => by linarith [hc.1]
        have n5 : ¬(20 ≤ s) := by linarith
        rw [if_neg n1, if_pos p2, if_neg n3, if_neg n4, if_neg n5, if_pos h0]
      · rcases lt_or_le s 15 with h15 | h15
        · have n1 : ¬(0 ≤ s ∧ s < 5) := fun hc => by linarith [hc.2]
          have n2 : ¬(5 ≤ s ∧ s < 10) := fun hc => by linarith [hc.2]
          have p3 : (10 ≤ s ∧ s < 15) := ⟨h10, h15⟩
          have n4 : ¬(15 ≤ s ∧ s < 20) := fun hc => by linarith [hc.1]
          have n5 : ¬(20 ≤ s) := by linarith
          rw [if_neg n1, if_neg n2, if_pos p3, if_neg n4, if_neg n5, if_pos h0]
        · rcases lt_or_le s 20 with h20 | h20
          · have n1 : ¬(0 ≤ s ∧ s < 5) := fun hc => by linarith [hc.2]
            have n2 : ¬(5 ≤ s ∧ s < 10) := fun hc => by linarith [hc.2]
            have n3 : ¬(10 ≤ s ∧ s < 15) := fun hc => by linarith [hc.2]
            have p4 : (15 ≤ s ∧ s < 20) := ⟨h15, h20⟩
            have n5 : ¬(20 ≤ s) := by linarith
            rw [if_neg n1, if_neg n2, if_neg n3, if_pos p4, if_neg n5, if_pos h0]
          · have n1 : ¬(0 ≤ s ∧ s < 5) := fun hc => by linarith [hc.2]
            have n2 : ¬(5 ≤ s ∧ s < 10) := fun hc => by linarith [hc.2]
            have n3 : ¬(10 ≤ s ∧ s < 15) := fun hc => by linarith [hc.2]
            have n4 : ¬(15 ≤ s ∧ s < 20) := fun hc => by linarith [hc.2]
            rw [if_neg n1, if_neg n2, if_neg n3, if_neg n4, if_pos h20, if_pos h0]

/-- Counterexample to C4: the recorded score `-1` falls into none of the five
buckets (all bucket membership tests fail), so the ranges have a gap below
zero. -/
theorem c4_counterexample :
    convergenceScores [c4Pt] = [(-1 : ℚ)] ∧
    (scoreRanges (convergenceScores [c4Pt])).countP
      (fun nr => decide ((-1 : ℚ) ∈ nr.2)) = 0 := by
  exact ⟨rfl, by decide⟩

/-- C4 (amended): no score ever falls into two buckets, every non-negative
score falls into exactly one bucket (a negative score falls into none), and
for the score list `[1, 6, 11, 22]` each bucket holds the expected value, with
the `20+` bucket mean equal to `22`. -/
theorem c4_bucket_partition :
    (∀ (scores : List ℚ), ∀ s ∈ scores,
      (scoreRanges scores).countP (fun nr => decide (s ∈ nr.2)) ≤ 1 ∧
      (0 ≤ s → (scoreRanges scores).countP (fun nr => decide (s ∈ nr.2)) = 1)) ∧
    (scoreRanges [1, 6, 11, 22]).map (fun nr => (nr.1, meanQ nr.2)) =
      [("0-5", some 1), ("5-10", some 6), ("10-15", some 11),
       ("15-20", none), ("20+", some 22)] := by
  constructor
  · intro scores s hs
    rw [countP_scoreRanges scores s hs]
    constructor
    · split <;> norm_num
    · intro hpos
      rw [if_pos hpos]
  · have h : scoreRanges [1, 6, 11, 22] =
        [("0-5", [1]), ("5-10", [6]), ("10-15", [11]), ("15-20", []), ("20+", [22])] := by
      decide
    rw [h]
    simp [meanQ]

theorem c4_witness :
    (scoreRanges [(1 : ℚ), 6, 11, 22]).countP
      (fun nr => decide ((22 : ℚ) ∈ nr.2)) = 1 :=
  (c4_bucket_partition.1 [1, 6, 11, 22] 22 (by decide)).2 (by decide)

/-! Permutation-invariance lemmas for the aggregate values (claim C5). -/

theorem maximum_eq_of_perm {α : Type} [LinearOrder α] {l1 l2 : List α}
    (h : l1.Perm l2) : l1.maximum = l2.maximum := by
  induction h with
  | nil => rfl
  | cons a _ ih => rw [List.maximum_cons, List.maximum_cons, ih]
  | swap a b l =>
    rw [List.maximum_cons, List.maximum_cons, List.maximum_cons,
      List.maximum_cons, max_left_comm]
  | trans _ _ ih1 ih2 => rw [ih1, ih2]

theorem minimum_eq_of_perm {α : Type} [LinearOrder α] {l1 l2 : List α}
    (h : l1.Perm l2) : l1.minimum = l2.minimum := by
  induction h with
  | nil => rfl
  | cons a _ ih => rw [List.minimum_cons, List.minimum_cons, ih]
  | swap a b l =>
    rw [List.minimum_cons, List.minimum_cons, List.minimum_cons,
      List.minimum_cons, min_left_comm]
  | trans _ _ ih1 ih2 => rw [ih1, ih2]

theorem meanQ_perm {l1 l2 : List ℚ} (h : l1.Perm l2) : meanQ l1 = meanQ l2 := by
  by_cases h1 : l1 = []
  · have h2 : l2 = [] := ((h1 ▸ h : ([] : List ℚ).Perm l2).symm).eq_nil
    rw [h1, h2]
  · have h2 : l2 ≠ [] := fun hc => h1 ((hc ▸ h : l1.Perm ([] : List ℚ)).eq_nil)
    rw [meanQ, meanQ, if_neg h1, if_neg h2, h.sum_eq, h.length_eq]

theorem sortQ_eq_of_perm {l1 l2 : List ℚ} (h : l1.Perm l2) : sortQ l1 = sortQ l2 :=
  List.eq_of_perm_of_sorted
    ((List.perm_insertionSort _ _).trans (h.trans (List.perm_insertionSort _ _).symm))
    (List.sorted_insertionSort _ _) (List.sorted_insertionSort _ _)

theorem medianQ_perm {l1 l2 : List ℚ} (h : l1.Perm l2) :
    medianQ l1 = medianQ l2 := by
  rw [medianQ, medianQ, sortQ_eq_of_perm h]

theorem stdevSqQ_perm {l1 l2 : List ℚ} (h : l1.Perm l2) :
    stdevSqQ l1 = stdevSqQ l2 := by
  rw [stdevSqQ, stdevSqQ, h.length_eq, h.sum_eq]
  have hsum : (List.map (fun x => (x - l2.sum / (l2.length : ℚ)) ^ 2) l1).sum =
      (List.map (fun x => (x - l2.sum / (l2.length : ℚ)) ^ 2) l2).sum :=
    List.Perm.sum_eq (h.map _)
  rw [hsum]

theorem meanN_perm {l1 l2 : List ℕ} (h : l1.Perm l2) : meanN l1 = meanN l2 := by
  rw [meanN, meanN]
  exact meanQ_perm (h.map _)

theorem medianN_perm {l1 l2 : List ℕ} (h : l1.Perm l2) : medianN l1 = medianN l2 := by
  rw [medianN, medianN]
  exact medianQ_perm (h.map _)

theorem sortN_eq_of_perm {l1 l2 : List ℕ} (h : l1.Perm l2) : sortN l1 = sortN l2 :=
  List.eq_of_perm_of_sorted
    ((List.perm_insertionSort _ _).trans (h.trans (List.perm_insertionSort _ _).symm))
    (List.sorted_insertionSort _ _) (List.sorted_insertionSort _ _)

theorem sizeDist_perm {l1 l2 : List ℕ} (h : l1.Perm l2) : sizeDist l1 = sizeDist l2 := by
  rw [sizeDist, sizeDist, sortN_eq_of_perm h.dedup]
  apply List.map_congr_left
  intro k _
  rw [h.count_eq]

theorem rangeLine_congr {name : String} {l1 l2 : List ℚ} (h : l1.Perm l2) :
    rangeLine name l1 = rangeLine name l2 := by
  by_cases h1 : l1 = []
  · have h2 : l2 = [] := ((h1 ▸ h : ([] : List ℚ).Perm l2).symm).eq_nil
    rw [h1, h2]
  · have h2 : l2 ≠ [] := fun hc => h1 ((hc ▸ h : l1.Perm ([] : List ℚ)).eq_nil)
    rw [rangeLine, rangeLine, if_neg h1, if_neg h2, h.length_eq, meanQ_perm h]

theorem scoreRangeLines_perm {sc1 sc2 : List ℚ} (h : sc1.Perm sc2) :
    scoreRangeLines sc1 = scoreRangeLines sc2 := by
  simp only [scoreRangeLines, scoreRanges, rangeLines, List.filterMap_cons,
    List.filterMap_nil]
  rw [rangeLine_congr (h.filter _), rangeLine_congr (h.filter _),
    rangeLine_congr (h.filter _), rangeLine_congr (h.filter _),
    rangeLine_congr (h.filter _)]

theorem chainSizes_perm {pts1 pts2 : List Point} (h : pts1.Perm pts2) :
    (chainSizes pts1).Perm (chainSizes pts2) :=
  List.Perm.flatMap_right _ h

theorem convergenceScores_perm {pts1 pts2 : List Point} (h : pts1.Perm pts2) :
    (convergenceScores pts1).Perm (convergenceScores pts2) :=
  List.Perm.flatMap_right _ h

theorem chainSectionOf_perm {pts1 pts2 : List Point} (h : pts1.Perm pts2) :
    chainSectionOf pts1 = chainSectionOf pts2 := by
  have hcs := chainSizes_perm h
  by_cases h1 : chainSizes pts1 = []
  · have h2 : chainSizes pts2 = [] :=
      ((h1 ▸ hcs : ([] : List ℕ).Perm (chainSizes pts2)).symm).eq_nil
    simp [chainSectionOf, h1, h2]
  · have h2 : chainSizes pts2 ≠ [] :=
      fun hc => h1 ((hc ▸ hcs : (chainSizes pts1).Perm ([] : List ℕ)).eq_nil)
    simp only [chainSectionOf, if_neg h1, if_neg h2, ChainSection.stats.injEq,
      ChainStats.mk.injEq]
    exact ⟨hcs.length_eq, meanN_perm hcs, medianN_perm hcs,
      maximum_eq_of_perm hcs, minimum_eq_of_perm hcs, sizeDist_perm hcs⟩

theorem scoresSectionOf_perm {pts1 pts2 : List Point} (h : pts1.Perm pts2) :
    scoresSectionOf pts1 = scoresSectionOf pts2 := by
  have hsc := convergenceScores_perm h
  by_cases h1 : convergenceScores pts1 = []
  · have h2 : convergenceScores pts2 = [] :=
      ((h1 ▸ hsc : ([] : List ℚ).Perm (convergenceScores pts2)).symm).eq_nil
    simp [scoresSectionOf, h1, h2]
  · have h2 : convergenceScores pts2 ≠ [] :=
      fun hc => h1 ((hc ▸ hsc : (convergenceScores pts1).Perm ([] : List ℚ)).eq_nil)
    simp only [scoresSectionOf, if_neg h1, if_neg h2, ScoreSection.stats.injEq,
      ScoreStats.mk.injEq]
    exact ⟨hsc.length_eq, meanQ_perm hsc, medianQ_perm hsc,
      maximum_eq_of_perm hsc, minimum_eq_of_perm hsc, stdevSqQ_perm hsc,
      scoreRangeLines_perm hsc⟩

theorem filesUnique_card_le (pts : List Point) :
    (filesUnique pts).card ≤ pts.length :=
  le_trans (List.toFinset_card_le _) (List.length_filterMap_le _ _)

/-- C5: all final aggregate values — the set of unique file identities, the
payload-field catalog, the per-category, per-intelligence-type and
per-enrichment-level counts, and the full chain and score statistics — are
invariant under any permutation of the input records; permuting the input
documents only permutes the merged record list; and the set of unique file
identities has cardinality at most the number of records. -/
theorem c5_order_invariance :
    (∀ (pts1 pts2 : List Point), pts1.Perm pts2 →
      filesUnique pts1 = filesUnique pts2 ∧
      payloadFields pts1 = payloadFields pts2 ∧
      (∀ c, catCount pts1 c = catCount pts2 c) ∧
      (∀ t, intelCount pts1 t = intelCount pts2 t) ∧
      (∀ e, enrichCount pts1 e = enrichCount pts2 e) ∧
      chainSectionOf pts1 = chainSectionOf pts2 ∧
      scoresSectionOf pts1 = scoresSectionOf pts2) ∧
    (∀ (docs1 docs2 : List Doc), docs1.Perm docs2 →
      (allPoints docs1).Perm (allPoints docs2)) ∧
    (∀ pts : List Point, (filesUnique pts).card ≤ pts.length) := by
  refine ⟨?_, ?_, filesUnique_card_le⟩
  · intro pts1 pts2 h
    refine ⟨?_, ?_, ?_, ?_, ?_, chainSectionOf_perm h, scoresSectionOf_perm h⟩
    · exact List.toFinset_eq_of_perm _ _ (h.filterMap _)
    · exact List.toFinset_eq_of_perm _ _ (List.Perm.flatMap_right _ h)
    · intro c
      exact (List.Perm.flatMap_right _ h).count_eq c
    · intro t
      exact (h.filterMap _).count_eq t
    · intro e
      exact (h.filterMap _).count_eq e
  · intro docs1 docs2 h
    exact List.Perm.flatMap_right _ h

theorem c5_witness :
    filesUnique [c5PtA, c5PtB] = filesUnique [c5PtB, c5PtA] ∧
    catCount [c5PtA, c5PtB] (Val.scalar (Scalar.str "x")) =
      catCount [c5PtB, c5PtA] (Val.scalar (Scalar.str "x")) ∧
    (filesUnique [c5PtA, c5PtB]).card ≤ 2 := by
  have h := c5_order_invariance.1 [c5PtA, c5PtB] [c5PtB, c5PtA]
    (List.Perm.swap c5PtB c5PtA [])
  exact ⟨h.1, h.2.2.1 _, c5_order_invariance.2.2 [c5PtA, c5PtB]⟩

